import Mathlib

/-!
Verification of the per-asset execution pipeline of `python/core/executor.py`.

The embedding below translates the source file's data model and operations
into Lean. Machine-level collaborators are made explicit:

* the filesystem is a set of existing paths, represented as a `List String`
  (`os.path.exists` is membership, `os.remove` filters the path out);
* the readiness of the two workfile paths over polling instants
  (`_wait_for_workfiles`) is an oracle `Nat → Bool` per path, because in
  fifo mode the producers run in separate processes;
* the outcome of `os.rmdir` on the log directory is an oracle
  `Option Nat` (`none` = success, `some errno` = it raised `OSError(errno)`);
* the external computation hook (`_generate_result` / `_read_result`,
  abstract in the source class) is an oracle producing an opaque `Result`;
* Python `assert` failures and `raise RuntimeError` become `Except.error`.

Pieces of the repository that are referenced by `executor.py` but live
outside the provided source (the `Asset` class, `tools.misc.parallel_map`,
`config.get_and_assert_ffmpeg`) are modelled from the specification and
carry a doc comment saying so.
-/

deriving instance DecidableEq for Except

namespace Vmaf

/-- Width and height of a video, a pair of naturals. -/
structure WidthHeight where
  width : Nat
  height : Nat
deriving DecidableEq, Repr

/-- Opaque Result produced by a run or retrieved from the result store. -/
structure Result where
  val : Nat
deriving DecidableEq, Repr

/-- Modelled from the spec: the AssetDescriptor (the `Asset` class is not
under `src/`). Fields mirror the attributes `executor.py` reads:
source paths, working directory, native and target dimensions, optional
crop/pad specs, pixel-format and resampling tags, the key set of
`asset_dict` (used by `_assert_an_asset` to test explicit configuration),
the mutable `use_path_as_workpath` flag (defaulting to `false` until the
core sets it), the generated transient workfile paths, and the canonical
identity string `str(asset)`. -/
structure Asset where
  ref_path : String
  dis_path : String
  workdir : String
  ref_width_height : WidthHeight
  dis_width_height : WidthHeight
  quality_width_height : WidthHeight
  crop_cmd : Option String
  pad_cmd : Option String
  yuv_type : String
  resampling_type : String
  asset_dict_keys : List String
  use_path_as_workpath : Bool
  ref_workfile_path_gen : String
  dis_workfile_path_gen : String
  asset_str : String
deriving DecidableEq, Repr

/-- Modelled from the spec: the Asset class's `ref_workfile_path` property;
when `use_path_as_workpath` is set the downstream steps operate directly on
the source path, otherwise on the generated transient path. -/
def Asset.ref_workfile_path (a : Asset) : String :=
  if a.use_path_as_workpath then a.ref_path else a.ref_workfile_path_gen

/-- Modelled from the spec: the Asset class's `dis_workfile_path` property. -/
def Asset.dis_workfile_path (a : Asset) : String :=
  if a.use_path_as_workpath then a.dis_path else a.dis_workfile_path_gen

/-- Errors raised inside the pipeline: Python `assert` failures
(`AssertionError`) and `raise RuntimeError`. -/
inductive RunErr where
  | assertFail (msg : String)
  | runtimeErr (msg : String)
deriving DecidableEq, Repr

/-- Observable actions of one `_run_on_asset` call, in program order. The
`generateResult` action records which two input paths the external
computation hook consumes. -/
inductive Action where
  | cacheCheck
  | assertPaths
  | closeRefWorkfile
  | closeDisWorkfile
  | makeLogParentDirs
  | openRefWorkfile (fifo : Bool)
  | openDisWorkfile (fifo : Bool)
  | waitForWorkfiles
  | prepareLogFile
  | generateResult (ref_input dis_input : String)
  | readResult
  | saveResult
  | removeLog
  | rmdirLogDir
  | postProcess
deriving DecidableEq, Repr

/-- The result store's load operation, keyed by (asset identity string,
executor identity string); `none` is a cache miss. -/
def ResultStore : Type := String → String → Option Result

/-- Executor configuration: the fields of the `Executor` object that
`_run_on_asset` reads (`executor_id` is the derived identity property,
`sha1` stands for `hashlib.sha1(str(asset)).hexdigest()`). -/
structure Executor where
  executor_id : String
  fifo_mode : Bool
  delete_workdir : Bool
  result_store : Option ResultStore
  sha1 : String → String

/-- External collaborators of one run: readiness of the two workfile paths
at each polling instant, the Result parsed from the log artifact, and the
outcome of `os.rmdir` on the log directory. -/
structure Oracles where
  ref_exists : Nat → Bool
  dis_exists : Nat → Bool
  parsed_result : Result
  rmdir_errno : Option Nat

/-- Filesystem model: `os.path.exists`. -/
def path_exists (fs : List String) (p : String) : Bool :=
  fs.contains p

/-- Filesystem model: `os.remove` (the filesystem is a set of paths). -/
def remove_path (p : String) (fs : List String) : List String :=
  fs.filter (fun q => q != p)

/-- Lines 316-319: `_post_process_result` of the base class is the
identity; it is the override point for result shaping. -/
def post_process_result (r : Result) : Result := r

/-- Lines 203-206: query the result store when one is configured. -/
def cache_lookup (e : Executor) (a : Asset) : Option Result :=
  match e.result_store with
  | some store => store a.asset_str e.executor_id
  | none => none

/-- Lines 321-324: `_get_log_file_path`. -/
def get_log_file_path (e : Executor) (a : Asset) : String :=
  a.workdir ++ "/" ++ e.executor_id ++ "_" ++ e.sha1 a.asset_str

/-- Lines 192-196: `_assert_paths`. Faithful to the source: BOTH asserts
test `os.path.exists(asset.ref_path)`; the second assert's message names
`asset.dis_path` but its condition reads `asset.ref_path`. -/
def assert_paths (fs : List String) (a : Asset) : Except RunErr Unit :=
  if path_exists fs a.ref_path then
    if path_exists fs a.ref_path then
      Except.ok ()
    else
      Except.error (RunErr.assertFail
        ("Distorted path " ++ a.dis_path ++ " does not exist."))
  else
    Except.error (RunErr.assertFail
      ("Reference path " ++ a.ref_path ++ " does not exist."))

/-- Lines 306-314: `_set_asset_use_path_as_workpath`. It only ever sets the
flag to true; when the condition fails the asset is left unchanged. -/
def set_asset_use_path_as_workpath (a : Asset) : Asset :=
  if a.quality_width_height = a.ref_width_height
      ∧ a.quality_width_height = a.dis_width_height
      ∧ a.crop_cmd = none
      ∧ a.pad_cmd = none then
    { a with use_path_as_workpath := true }
  else
    a

/-- Lines 417-426: `_close_ref_workfile`. Asserts the flag is unset and the
workfile path differs from the source path, then removes the workfile path
only if it exists. -/
def close_ref_workfile (a : Asset) (fs : List String) : Except RunErr (List String) :=
  if a.use_path_as_workpath = false ∧ a.ref_path ≠ a.ref_workfile_path then
    if path_exists fs a.ref_workfile_path then
      Except.ok (remove_path a.ref_workfile_path fs)
    else
      Except.ok fs
  else
    Except.error (RunErr.assertFail "close_ref_workfile precondition")

/-- Lines 428-437: `_close_dis_workfile`. -/
def close_dis_workfile (a : Asset) (fs : List String) : Except RunErr (List String) :=
  if a.use_path_as_workpath = false ∧ a.dis_path ≠ a.dis_workfile_path then
    if path_exists fs a.dis_workfile_path then
      Except.ok (remove_path a.dis_workfile_path fs)
    else
      Except.ok fs
  else
    Except.error (RunErr.assertFail "close_dis_workfile precondition")

/-- Lines 328-363 (materialized mode): `_open_ref_workfile` asserts the
flag is unset and the paths differ, then (abstracting the transcode
collaborator) fully materializes the workfile, so its path now exists. -/
def open_ref_workfile (a : Asset) (fs : List String) : Except RunErr (List String) :=
  if a.use_path_as_workpath = false ∧ a.ref_path ≠ a.ref_workfile_path then
    Except.ok (fs.insert a.ref_workfile_path)
  else
    Except.error (RunErr.assertFail "open_ref_workfile precondition")

/-- Lines 365-400 (materialized mode): `_open_dis_workfile`. -/
def open_dis_workfile (a : Asset) (fs : List String) : Except RunErr (List String) :=
  if a.use_path_as_workpath = false ∧ a.dis_path ≠ a.dis_workfile_path then
    Except.ok (fs.insert a.dis_workfile_path)
  else
    Except.error (RunErr.assertFail "open_dis_workfile precondition")

/-- Lines 174-178: the message of the workfile-readiness timeout error,
naming both expected workfile paths. -/
def wait_msg (a : Asset) : String :=
  "ref or dis video workfile path " ++ a.ref_workfile_path ++ " or "
    ++ a.dis_workfile_path ++ " is missing."

/-- Line 172: `sleep(0.1)` between polls, in milliseconds. -/
def wait_sleep_ms : Nat := 100

/-- Lines 165-178: the polling loop of `_wait_for_workfiles`, polling from
instant `i` with the given fuel; on success it returns the total number of
polls performed (`i + 1` when the poll at instant `i` succeeds). The
`for ... else` of the source raises once the fuel (10 iterations) is
exhausted. -/
def wait_for_workfiles_from (refEx disEx : Nat → Bool) (a : Asset) :
    Nat → Nat → Except String Nat
  | _, 0 => Except.error (wait_msg a)
  | i, fuel + 1 =>
    if refEx i && disEx i then
      Except.ok (i + 1)
    else
      wait_for_workfiles_from refEx disEx a (i + 1) fuel

/-- Lines 165-178: `_wait_for_workfiles`, 10 polling attempts. -/
def wait_for_workfiles (refEx disEx : Nat → Bool) (a : Asset) : Except String Nat :=
  wait_for_workfiles_from refEx disEx a 0 10

/-- Modelled from the spec: `config.get_and_assert_ffmpeg` (not under
`src/`) returns the ffmpeg path, failing when ffmpeg is unavailable. -/
def get_and_assert_ffmpeg (ffmpeg_exists : Bool) : Except RunErr String :=
  if ffmpeg_exists then Except.ok "ffmpeg" else
    Except.error (RunErr.assertFail "ffmpeg does not exist")

/-- Lines 159-161: the pad half of `_assert_an_asset`. -/
def assert_pad_explicit (a : Asset) : Except RunErr Unit :=
  match a.pad_cmd with
  | some _ =>
    if "quality_width" ∈ a.asset_dict_keys ∧ "quality_height" ∈ a.asset_dict_keys then
      Except.ok ()
    else
      Except.error (RunErr.assertFail
        "If pad_cmd is specified, must also EXPLICITLY specify quality_width and quality_height.")
  | none => Except.ok ()

/-- Lines 156-158: the crop half of `_assert_an_asset`. -/
def assert_crop_explicit (a : Asset) : Except RunErr Unit :=
  match a.crop_cmd with
  | some _ =>
    if "quality_width" ∈ a.asset_dict_keys ∧ "quality_height" ∈ a.asset_dict_keys then
      Except.ok ()
    else
      Except.error (RunErr.assertFail
        "If crop_cmd is specified, must also EXPLICITLY specify quality_width and quality_height.")
  | none => Except.ok ()

/-- Lines 145-163: `_assert_an_asset`. First, if the quality dimensions
disagree with either native dimension, ffmpeg must be available; then the
crop assert runs, then the pad assert, each requiring `quality_width` and
`quality_height` to be explicit keys of `asset_dict`. -/
def assert_an_asset (ffmpeg_exists : Bool) (a : Asset) : Except RunErr Unit :=
  match (if a.quality_width_height ≠ a.ref_width_height
            ∨ a.quality_width_height ≠ a.dis_width_height then
           get_and_assert_ffmpeg ffmpeg_exists
         else Except.ok "") with
  | Except.error err => Except.error err
  | Except.ok _ =>
    match assert_crop_explicit a with
    | Except.error err => Except.error err
    | Except.ok _ => assert_pad_explicit a

/-- Lines 127-143: `_assert_assets` checks each asset in order. -/
def assert_assets (ffmpeg_exists : Bool) : List Asset → Except RunErr Unit
  | [] => Except.ok ()
  | a :: rest =>
    match assert_an_asset ffmpeg_exists a with
    | Except.error err => Except.error err
    | Except.ok _ => assert_assets ffmpeg_exists rest

/-- Lines 27-54: `Executor.__init__` runs `_assert_args` (a no-op in the
base class) and `_assert_assets` before anything else. -/
def executor_init (ffmpeg_exists : Bool) (assets : List Asset) : Except RunErr Unit :=
  assert_assets ffmpeg_exists assets

/-- Lines 236-237 and 268-269: close both workfiles, reference first. -/
def close_both_workfiles (a : Asset) (fs : List String) :
    Except RunErr (List String) × List Action :=
  match close_ref_workfile a fs with
  | Except.error err => (Except.error err, [Action.closeRefWorkfile])
  | Except.ok fs1 =>
    match close_dis_workfile a fs1 with
    | Except.error err =>
      (Except.error err, [Action.closeRefWorkfile, Action.closeDisWorkfile])
    | Except.ok fs2 =>
      (Except.ok fs2, [Action.closeRefWorkfile, Action.closeDisWorkfile])

/-- Lines 230-237: early removal of stale workfiles, skipped entirely when
`use_path_as_workpath` holds. -/
def remove_stale_workfiles (a : Asset) (fs : List String) :
    Except RunErr (List String) × List Action :=
  if a.use_path_as_workpath then (Except.ok fs, [])
  else close_both_workfiles a fs

/-- Lines 242-256: workfile setup. Skipped when `use_path_as_workpath`. In
fifo mode the two producers are started as concurrent processes (their
filesystem effects are abstracted by the readiness oracles) and the bounded
wait is performed; on success both workfile paths exist. In materialized
mode the two workfiles are written synchronously, in the main process. -/
def workfile_setup (e : Executor) (orc : Oracles) (a : Asset) (fs : List String) :
    Except RunErr (List String) × List Action :=
  if a.use_path_as_workpath then (Except.ok fs, [])
  else
    if e.fifo_mode then
      match wait_for_workfiles orc.ref_exists orc.dis_exists a with
      | Except.error msg =>
        (Except.error (RunErr.runtimeErr msg),
         [Action.openRefWorkfile true, Action.openDisWorkfile true,
          Action.waitForWorkfiles])
      | Except.ok _ =>
        (Except.ok ((fs.insert a.ref_workfile_path).insert a.dis_workfile_path),
         [Action.openRefWorkfile true, Action.openDisWorkfile true,
          Action.waitForWorkfiles])
    else
      match open_ref_workfile a fs with
      | Except.error err => (Except.error err, [Action.openRefWorkfile false])
      | Except.ok fs1 =>
        match open_dis_workfile a fs1 with
        | Except.error err =>
          (Except.error err, [Action.openRefWorkfile false, Action.openDisWorkfile false])
        | Except.ok fs2 =>
          (Except.ok fs2, [Action.openRefWorkfile false, Action.openDisWorkfile false])

/-- Lines 263-269: workfile teardown after the external computation, only
when `delete_workdir` is enabled and `use_path_as_workpath` is unset. -/
def teardown_workfiles (e : Executor) (a : Asset) (fs : List String) :
    Except RunErr (List String) × List Action :=
  if e.delete_workdir then
    if a.use_path_as_workpath then (Except.ok fs, [])
    else close_both_workfiles a fs
  else (Except.ok fs, [])

/-- Lines 291-300: the `try os.rmdir ... except OSError` handler. When the
errno is 39 (directory not empty) the handler passes explicitly; for every
other errno control reaches the end of the `except` block, which in Python
also suppresses the exception, so no OSError propagates. -/
def rmdir_log_dir (outcome : Option Nat) : Except RunErr Unit :=
  match outcome with
  | none => Except.ok ()
  | some errno =>
    if errno == 39 then
      Except.ok ()
    else
      Except.ok ()

/-- Lines 283-300: log teardown when `delete_workdir` is enabled: remove
the log file (a no-op when it does not exist), then try to remove the log
directory. -/
def log_teardown (e : Executor) (orc : Oracles) (a : Asset) (fs : List String) :
    Except RunErr (List String) × List Action :=
  if e.delete_workdir then
    match rmdir_log_dir orc.rmdir_errno with
    | Except.error err => (Except.error err, [Action.removeLog, Action.rmdirLogDir])
    | Except.ok _ =>
      (Except.ok (remove_path (get_log_file_path e a) fs),
       [Action.removeLog, Action.rmdirLogDir])
  else (Except.ok fs, [])

/-- Lines 198-304: `_run_on_asset`. Returns the outcome together with the
trace of observable actions performed, in program order. A cache hit
short-circuits directly to post-processing; a miss runs path validation,
stale-workfile removal, log-parent creation, workfile setup, log
preparation, the generate hook, workfile teardown, result extraction,
cache save, and log teardown, then post-processes. -/
def run_on_asset (e : Executor) (orc : Oracles) (asset0 : Asset) (fs0 : List String) :
    Except RunErr Result × List Action :=
  match cache_lookup e asset0 with
  | some r =>
    (Except.ok (post_process_result r), [Action.cacheCheck, Action.postProcess])
  | none =>
    match assert_paths fs0 asset0 with
    | Except.error err => (Except.error err, [Action.cacheCheck, Action.assertPaths])
    | Except.ok _ =>
      let a := set_asset_use_path_as_workpath asset0
      match remove_stale_workfiles a fs0 with
      | (Except.error err, t1) =>
        (Except.error err, [Action.cacheCheck, Action.assertPaths] ++ t1)
      | (Except.ok fs1, t1) =>
        match workfile_setup e orc a fs1 with
        | (Except.error err, t2) =>
          (Except.error err,
           [Action.cacheCheck, Action.assertPaths] ++ t1
             ++ [Action.makeLogParentDirs] ++ t2)
        | (Except.ok fs2, t2) =>
          match teardown_workfiles e a fs2 with
          | (Except.error err, t3) =>
            (Except.error err,
             [Action.cacheCheck, Action.assertPaths] ++ t1
               ++ [Action.makeLogParentDirs] ++ t2
               ++ [Action.prepareLogFile,
                   Action.generateResult a.ref_workfile_path a.dis_workfile_path]
               ++ t3)
          | (Except.ok fs3, t3) =>
            match log_teardown e orc a fs3 with
            | (Except.error err, t4) =>
              (Except.error err,
               [Action.cacheCheck, Action.assertPaths] ++ t1
                 ++ [Action.makeLogParentDirs] ++ t2
                 ++ [Action.prepareLogFile,
                     Action.generateResult a.ref_workfile_path a.dis_workfile_path]
                 ++ t3 ++ [Action.readResult]
                 ++ (if e.result_store.isSome then [Action.saveResult] else [])
                 ++ t4)
            | (Except.ok _, t4) =>
              (Except.ok (post_process_result orc.parsed_result),
               [Action.cacheCheck, Action.assertPaths] ++ t1
                 ++ [Action.makeLogParentDirs] ++ t2
                 ++ [Action.prepareLogFile,
                     Action.generateResult a.ref_workfile_path a.dis_workfile_path]
                 ++ t3 ++ [Action.readResult]
                 ++ (if e.result_store.isSome then [Action.saveResult] else [])
                 ++ t4 ++ [Action.postProcess])

/-- Lines 87-95 and 472-479 (the two parallel entry points contain the same
loop verbatim): assign one lock handle per asset, creating a fresh handle
(`multiprocessing.Lock()`) when the asset's identity string is seen for the
first time and reusing the stored handle otherwise. Handles are fresh
naturals, `m` is the map built so far. -/
def assign_locks_aux : List String → List (String × Nat) → Nat → List Nat
  | [], _, _ => []
  | s :: rest, m, fresh =>
    match List.lookup s m with
    | some l => l :: assign_locks_aux rest m fresh
    | none => fresh :: assign_locks_aux rest ((s, fresh) :: m) (fresh + 1)

/-- Lock assignment for a list of asset identity strings. -/
def assign_locks (xs : List String) : List Nat :=
  assign_locks_aux xs [] 0

/-- Lock assignment for a list of assets, keyed by `str(asset)`. -/
def assign_locks_of_assets (assets : List Asset) : List Nat :=
  assign_locks (assets.map Asset.asset_str)

/-- Modelled from the spec: `tools.misc.parallel_map` (not under `src/`)
applies the function to every element and returns the outputs in the order
of the inputs, regardless of completion order. -/
def parallel_map (f : Asset → Except RunErr Result) (xs : List Asset) :
    List (Except RunErr Result) :=
  xs.map f

/-- Lines 488-496: one job of `run_executors_in_parallel`: construct a
single-asset executor (running its constructor asserts) and run it; the
job's result is `executor.results[0]`. -/
def run_executor_job (e : Executor) (orc : Oracles) (ffmpeg_exists : Bool)
    (fs : List String) (a : Asset) : Except RunErr Result :=
  match executor_init ffmpeg_exists [a] with
  | Except.error err => Except.error err
  | Except.ok _ => (run_on_asset e orc a fs).1

/-- Line 505: aggregate the per-job outcomes; a raised error in any job
propagates out of the whole call. -/
def aggregate_results : List (Except RunErr Result) → Except RunErr (List Result)
  | [] => Except.ok []
  | Except.error err :: _ => Except.error err
  | Except.ok r :: rest =>
    match aggregate_results rest with
    | Except.error err => Except.error err
    | Except.ok rs => Except.ok (r :: rs)

/-- Lines 449-507: `run_executors_in_parallel`. First construct an executor
over the whole list just to run the constructor asserts; then run one job
per asset, through `parallel_map` when parallelize is set and through plain
`map` otherwise; finally aggregate `executor.results[0]` per job, in input
order. -/
def run_executors_in_parallel (e : Executor) (orc : Oracles) (ffmpeg_exists : Bool)
    (assets : List Asset) (parallelize : Bool) (fs : List String) :
    Except RunErr (List Result) :=
  match executor_init ffmpeg_exists assets with
  | Except.error err => Except.error err
  | Except.ok _ =>
    aggregate_results
      (if parallelize then parallel_map (run_executor_job e orc ffmpeg_exists fs) assets
       else List.map (run_executor_job e orc ffmpeg_exists fs) assets)

/-! ### Concrete fixtures used by witnesses and counterexamples -/

/-- A 1920x1080 asset whose target dimensions match both sources and that
has no crop or pad spec. -/
def asset_yuv : Asset := {
  ref_path := "r.yuv", dis_path := "d.yuv", workdir := "wd",
  ref_width_height := ⟨1920, 1080⟩, dis_width_height := ⟨1920, 1080⟩,
  quality_width_height := ⟨1920, 1080⟩,
  crop_cmd := none, pad_cmd := none,
  yuv_type := "yuv420p", resampling_type := "bicubic",
  asset_dict_keys := [], use_path_as_workpath := false,
  ref_workfile_path_gen := "wd/ref_wf", dis_workfile_path_gen := "wd/dis_wf",
  asset_str := "A0" }

/-- Baseline executor: fifo mode, workdir deletion enabled, no store. -/
def exec_base : Executor := {
  executor_id := "VMAF_V0.1", fifo_mode := true, delete_workdir := true,
  result_store := none, sha1 := fun s => s }

/-- Executor whose result store holds a Result for every key. -/
def exec_hit : Executor :=
  { exec_base with result_store := some (fun _ _ => some ⟨7⟩) }

/-- Baseline oracles: workfiles always ready, rmdir succeeds. -/
def orc_base : Oracles := {
  ref_exists := fun _ => true, dis_exists := fun _ => true,
  parsed_result := ⟨42⟩, rmdir_errno := none }

/-- Oracles where removing the log directory fails with errno 13
(permission denied), an OSError whose cause is not a non-empty directory. -/
def orc_errno13 : Oracles := { orc_base with rmdir_errno := some 13 }

/-- Readiness oracle that never reports the workfile paths. -/
def never_ready : Nat → Bool := fun _ => false

/-! ### General lemmas about the pipeline stages -/

/-- The rmdir exception handler never lets an OSError escape: the errno-39
branch passes explicitly and every other errno falls off the end of the
handler. -/
lemma rmdir_log_dir_ok (o : Option Nat) : rmdir_log_dir o = Except.ok () := by
  cases o with
  | none => rfl
  | some n => simp [rmdir_log_dir]

/-- Log teardown in closed form: it never fails, removes the log file when
`delete_workdir` is enabled and does nothing otherwise. -/
lemma log_teardown_eq (e : Executor) (orc : Oracles) (a : Asset) (fs : List String) :
    log_teardown e orc a fs
      = (if e.delete_workdir then
           (Except.ok (remove_path (get_log_file_path e a) fs),
            [Action.removeLog, Action.rmdirLogDir])
         else (Except.ok fs, [])) := by
  unfold log_teardown
  rw [rmdir_log_dir_ok]

/-- A run's outcome and trace do not depend on the oracles' rmdir outcome
or any other field beyond workfile readiness and the parsed result. -/
lemma run_on_asset_oracle_congr (e : Executor) (orc1 orc2 : Oracles) (a : Asset)
    (fs : List String)
    (h1 : orc1.ref_exists = orc2.ref_exists)
    (h2 : orc1.dis_exists = orc2.dis_exists)
    (h3 : orc1.parsed_result = orc2.parsed_result) :
    run_on_asset e orc1 a fs = run_on_asset e orc2 a fs := by
  have hsetup : ∀ a' fs', workfile_setup e orc1 a' fs' = workfile_setup e orc2 a' fs' := by
    intro a' fs'
    unfold workfile_setup wait_for_workfiles
    rw [h1, h2]
  have hlog : ∀ a' fs', log_teardown e orc1 a' fs' = log_teardown e orc2 a' fs' := by
    intro a' fs'
    rw [log_teardown_eq, log_teardown_eq]
  unfold run_on_asset
  simp only [hsetup, hlog, h3]

/-! ### C1 -/

/-- C1: if the result store's load returns a cached Result for the asset's
identity and the executor's identity, `_run_on_asset` returns that Result
passed through the post-processing hook, and the only actions performed
are the cache check and post-processing: no path validation, no workfile
setup or teardown, no log preparation, no generate hook, no result
extraction, no cache save. -/
theorem cache_hit_short_circuits (e : Executor) (orc : Oracles) (a : Asset)
    (fs : List String) (r : Result) (h : cache_lookup e a = some r) :
    run_on_asset e orc a fs
      = (Except.ok (post_process_result r), [Action.cacheCheck, Action.postProcess])
    ∧ Action.assertPaths ∉ (run_on_asset e orc a fs).2
    ∧ Action.waitForWorkfiles ∉ (run_on_asset e orc a fs).2
    ∧ Action.prepareLogFile ∉ (run_on_asset e orc a fs).2
    ∧ (∀ rp dp, Action.generateResult rp dp ∉ (run_on_asset e orc a fs).2)
    ∧ Action.readResult ∉ (run_on_asset e orc a fs).2
    ∧ Action.saveResult ∉ (run_on_asset e orc a fs).2 := by
  have hrun : run_on_asset e orc a fs
      = (Except.ok (post_process_result r), [Action.cacheCheck, Action.postProcess]) := by
    unfold run_on_asset
    rw [h]
  refine ⟨hrun, ?_, ?_, ?_, ?_, ?_, ?_⟩ <;> simp [hrun]

/-- Witness for C1 at a concrete cached asset. -/
theorem cache_hit_short_circuits_witness :
    cache_lookup exec_hit asset_yuv = some ⟨7⟩
    ∧ run_on_asset exec_hit orc_base asset_yuv []
        = (Except.ok (post_process_result ⟨7⟩), [Action.cacheCheck, Action.postProcess]) :=
  ⟨rfl, (cache_hit_short_circuits exec_hit orc_base asset_yuv [] ⟨7⟩ rfl).1⟩

/-! ### C2 -/

/-- C2: evaluation of `_assert_paths` at a filesystem holding the reference
source but not the distorted source. The claim (and the second assert's own
message) says this must raise, but the source's second assert tests
`asset.ref_path` instead of `asset.dis_path`, so validation passes. -/
theorem assert_paths_ignores_missing_dis_path :
    path_exists ["r.yuv"] asset_yuv.ref_path = true
    ∧ path_exists ["r.yuv"] asset_yuv.dis_path = false
    ∧ assert_paths ["r.yuv"] asset_yuv = Except.ok () := by
  refine ⟨by decide, by decide, by decide⟩

/-! ### C3 -/

/-- C3 counterexample: a full `_run_on_asset` execution with
`delete_workdir` enabled in which removing the log directory fails with
errno 13 (not errno 39, directory-not-empty) — yet the run returns its
Result normally, so the failure does not propagate as the claim states. -/
theorem rmdir_failure_swallowed_cex :
    orc_errno13.rmdir_errno = some 13
    ∧ (13 == 39) = false
    ∧ exec_base.delete_workdir = true
    ∧ (run_on_asset exec_base orc_errno13 asset_yuv ["r.yuv", "d.yuv"]).1
        = Except.ok ⟨42⟩ := by
  refine ⟨rfl, by decide, rfl, by decide⟩

/-- C3 amended: the rmdir exception handler swallows every OSError (the
errno-39 test has no observable effect because the handler also falls
through silently for every other errno), so the outcome and trace of
`_run_on_asset` are entirely independent of the rmdir outcome and no
removal failure ever propagates. -/
theorem run_on_asset_independent_of_rmdir_outcome (e : Executor) (orc : Oracles)
    (a : Asset) (fs : List String) (o1 o2 : Option Nat) :
    run_on_asset e { orc with rmdir_errno := o1 } a fs
      = run_on_asset e { orc with rmdir_errno := o2 } a fs :=
  run_on_asset_oracle_congr e _ _ a fs rfl rfl rfl

/-! ### C4 -/

/-- Path existence in the filesystem model is membership. -/
lemma path_exists_iff (fs : List String) (p : String) :
    path_exists fs p = true ↔ p ∈ fs :=
  List.elem_iff

/-- Membership after a removal. -/
lemma mem_remove_path (p q : String) (fs : List String) :
    q ∈ remove_path p fs ↔ (q ∈ fs ∧ q ≠ p) := by
  simp [remove_path, List.mem_filter, bne_iff_ne]

/-- C4: workfile teardown never deletes a source path. Both close
operations require the flag unset and the workfile path distinct from the
source path; under that precondition they succeed, remove exactly the
workfile path and nothing else, keep the source path, and are idempotent:
when the workfile path does not exist the filesystem is returned
unchanged and no error is raised. -/
theorem close_workfiles_never_delete_sources (a : Asset) (fs : List String)
    (h0 : a.use_path_as_workpath = false)
    (h1 : a.ref_path ≠ a.ref_workfile_path)
    (h2 : a.dis_path ≠ a.dis_workfile_path) :
    (∃ fs', close_ref_workfile a fs = Except.ok fs'
        ∧ (∀ p, p ∈ fs' ↔ (p ∈ fs ∧ p ≠ a.ref_workfile_path))
        ∧ (a.ref_path ∈ fs → a.ref_path ∈ fs')
        ∧ (a.ref_workfile_path ∉ fs → fs' = fs))
    ∧ (∃ fs', close_dis_workfile a fs = Except.ok fs'
        ∧ (∀ p, p ∈ fs' ↔ (p ∈ fs ∧ p ≠ a.dis_workfile_path))
        ∧ (a.dis_path ∈ fs → a.dis_path ∈ fs')
        ∧ (a.dis_workfile_path ∉ fs → fs' = fs)) := by
  constructor
  · unfold close_ref_workfile
    rw [if_pos ⟨h0, h1⟩]
    by_cases hex : a.ref_workfile_path ∈ fs
    · rw [if_pos ((path_exists_iff fs a.ref_workfile_path).mpr hex)]
      refine ⟨remove_path a.ref_workfile_path fs, rfl, ?_, ?_, ?_⟩
      · intro p
        exact mem_remove_path _ _ _
      · intro hr
        exact (mem_remove_path _ _ _).mpr ⟨hr, h1⟩
      · intro hne
        exact absurd hex hne
    · rw [if_neg (fun hc => hex ((path_exists_iff fs a.ref_workfile_path).mp hc))]
      refine ⟨fs, rfl, ?_, fun hr => hr, fun _ => rfl⟩
      intro p
      constructor
      · intro hp
        refine ⟨hp, ?_⟩
        intro hpe
        exact hex (hpe ▸ hp)
      · intro hp
        exact hp.1
  · unfold close_dis_workfile
    rw [if_pos ⟨h0, h2⟩]
    by_cases hex : a.dis_workfile_path ∈ fs
    · rw [if_pos ((path_exists_iff fs a.dis_workfile_path).mpr hex)]
      refine ⟨remove_path a.dis_workfile_path fs, rfl, ?_, ?_, ?_⟩
      · intro p
        exact mem_remove_path _ _ _
      · intro hr
        exact (mem_remove_path _ _ _).mpr ⟨hr, h2⟩
      · intro hne
        exact absurd hex hne
    · rw [if_neg (fun hc => hex ((path_exists_iff fs a.dis_workfile_path).mp hc))]
      refine ⟨fs, rfl, ?_, fun hr => hr, fun _ => rfl⟩
      intro p
      constructor
      · intro hp
        refine ⟨hp, ?_⟩
        intro hpe
        exact hex (hpe ▸ hp)
      · intro hp
        exact hp.1

/-- Witness for C4 at a concrete asset and filesystem. -/
theorem close_workfiles_never_delete_sources_witness :
    (∃ fs', close_ref_workfile asset_yuv ["r.yuv", "wd/ref_wf"] = Except.ok fs'
        ∧ (∀ p, p ∈ fs' ↔ (p ∈ ["r.yuv", "wd/ref_wf"] ∧ p ≠ asset_yuv.ref_workfile_path))
        ∧ (asset_yuv.ref_path ∈ ["r.yuv", "wd/ref_wf"] → asset_yuv.ref_path ∈ fs')
        ∧ (asset_yuv.ref_workfile_path ∉ ["r.yuv", "wd/ref_wf"] → fs' = ["r.yuv", "wd/ref_wf"]))
    ∧ (∃ fs', close_dis_workfile asset_yuv ["r.yuv", "wd/ref_wf"] = Except.ok fs'
        ∧ (∀ p, p ∈ fs' ↔ (p ∈ ["r.yuv", "wd/ref_wf"] ∧ p ≠ asset_yuv.dis_workfile_path))
        ∧ (asset_yuv.dis_path ∈ ["r.yuv", "wd/ref_wf"] → asset_yuv.dis_path ∈ fs')
        ∧ (asset_yuv.dis_workfile_path ∉ ["r.yuv", "wd/ref_wf"] → fs' = ["r.yuv", "wd/ref_wf"])) :=
  close_workfiles_never_delete_sources asset_yuv ["r.yuv", "wd/ref_wf"]
    (by decide) (by decide) (by decide)

/-! ### C5 -/

/-- Path validation succeeds whenever the reference source path exists
(both asserts of the source test the reference path). -/
lemma assert_paths_ok_of_ref_mem (fs : List String) (a : Asset)
    (h : a.ref_path ∈ fs) : assert_paths fs a = Except.ok () := by
  unfold assert_paths
  rw [if_pos ((path_exists_iff fs a.ref_path).mpr h),
      if_pos ((path_exists_iff fs a.ref_path).mpr h)]

/-- When the no-rescale condition holds, the setter turns the flag on. -/
lemma set_asset_pos (a : Asset)
    (hc : a.quality_width_height = a.ref_width_height
        ∧ a.quality_width_height = a.dis_width_height
        ∧ a.crop_cmd = none ∧ a.pad_cmd = none) :
    set_asset_use_path_as_workpath a = { a with use_path_as_workpath := true } := by
  unfold set_asset_use_path_as_workpath
  rw [if_pos hc]

/-- Workfile teardown does nothing when the flag is set. -/
lemma teardown_workfiles_flag (e : Executor) (a : Asset) (fs : List String)
    (h : a.use_path_as_workpath = true) :
    teardown_workfiles e a fs = (Except.ok fs, []) := by
  unfold teardown_workfiles
  rw [h]
  split <;> rfl

/-- C5: after `_set_asset_use_path_as_workpath` runs on a fresh asset,
`use_path_as_workpath` holds iff the quality dimensions equal both native
dimensions and neither crop nor pad is set; and when the condition holds a
cache-miss run performs no workfile creation or deletion at all and hands
the source paths themselves to the generate hook. -/
theorem use_path_as_workpath_policy (e : Executor) (orc : Oracles) (a : Asset)
    (fs : List String) (h0 : a.use_path_as_workpath = false) :
    ((set_asset_use_path_as_workpath a).use_path_as_workpath = true
      ↔ (a.quality_width_height = a.ref_width_height
          ∧ a.quality_width_height = a.dis_width_height
          ∧ a.crop_cmd = none ∧ a.pad_cmd = none))
    ∧ (a.quality_width_height = a.ref_width_height
        → a.quality_width_height = a.dis_width_height
        → a.crop_cmd = none
        → a.pad_cmd = none
        → cache_lookup e a = none
        → a.ref_path ∈ fs
        → (∀ b, Action.openRefWorkfile b ∉ (run_on_asset e orc a fs).2)
          ∧ (∀ b, Action.openDisWorkfile b ∉ (run_on_asset e orc a fs).2)
          ∧ Action.closeRefWorkfile ∉ (run_on_asset e orc a fs).2
          ∧ Action.closeDisWorkfile ∉ (run_on_asset e orc a fs).2
          ∧ Action.waitForWorkfiles ∉ (run_on_asset e orc a fs).2
          ∧ Action.generateResult a.ref_path a.dis_path ∈ (run_on_asset e orc a fs).2) := by
  constructor
  · constructor
    · intro ht
      by_cases hc : a.quality_width_height = a.ref_width_height
          ∧ a.quality_width_height = a.dis_width_height
          ∧ a.crop_cmd = none ∧ a.pad_cmd = none
      · exact hc
      · exfalso
        unfold set_asset_use_path_as_workpath at ht
        rw [if_neg hc, h0] at ht
        exact Bool.false_ne_true ht
    · intro hc
      rw [set_asset_pos a hc]
  · intro hc1 hc2 hc3 hc4 hcache href
    have hset := set_asset_pos a ⟨hc1, hc2, hc3, hc4⟩
    have hflag : (set_asset_use_path_as_workpath a).use_path_as_workpath = true := by
      rw [hset]
    have hwf_ref : (set_asset_use_path_as_workpath a).ref_workfile_path = a.ref_path := by
      rw [hset]
      unfold Asset.ref_workfile_path
      rfl
    have hwf_dis : (set_asset_use_path_as_workpath a).dis_workfile_path = a.dis_path := by
      rw [hset]
      unfold Asset.dis_workfile_path
      rfl
    have hstale : remove_stale_workfiles (set_asset_use_path_as_workpath a) fs
        = (Except.ok fs, []) := by
      unfold remove_stale_workfiles
      rw [hflag]
      rfl
    have hsetup : workfile_setup e orc (set_asset_use_path_as_workpath a) fs
        = (Except.ok fs, []) := by
      unfold workfile_setup
      rw [hflag]
      rfl
    have htear : teardown_workfiles e (set_asset_use_path_as_workpath a) fs
        = (Except.ok fs, []) :=
      teardown_workfiles_flag e _ fs hflag
    have hrun : run_on_asset e orc a fs
        = (Except.ok (post_process_result orc.parsed_result),
           [Action.cacheCheck, Action.assertPaths]
             ++ [Action.makeLogParentDirs]
             ++ [Action.prepareLogFile, Action.generateResult a.ref_path a.dis_path]
             ++ [Action.readResult]
             ++ (if e.result_store.isSome then [Action.saveResult] else [])
             ++ (if e.delete_workdir then [Action.removeLog, Action.rmdirLogDir] else [])
             ++ [Action.postProcess]) := by
      unfold run_on_asset
      rw [hcache, assert_paths_ok_of_ref_mem fs a href]
      simp only [hstale, hsetup, htear, log_teardown_eq, hwf_ref, hwf_dis]
      cases hdel : e.delete_workdir <;> simp [hdel]
    refine ⟨?_, ?_, ?_, ?_, ?_, ?_⟩ <;>
      · rw [hrun]
        by_cases hs : e.result_store.isSome <;>
          by_cases hd : e.delete_workdir <;>
            simp [hs, hd]

/-- Witness for C5 at a concrete asset whose target dimensions match both
sources and that has no crop or pad. -/
theorem use_path_as_workpath_policy_witness :
    ((set_asset_use_path_as_workpath asset_yuv).use_path_as_workpath = true
      ↔ (asset_yuv.quality_width_height = asset_yuv.ref_width_height
          ∧ asset_yuv.quality_width_height = asset_yuv.dis_width_height
          ∧ asset_yuv.crop_cmd = none ∧ asset_yuv.pad_cmd = none))
    ∧ Action.closeRefWorkfile ∉ (run_on_asset exec_base orc_base asset_yuv ["r.yuv"]).2
    ∧ Action.generateResult asset_yuv.ref_path asset_yuv.dis_path
        ∈ (run_on_asset exec_base orc_base asset_yuv ["r.yuv"]).2 :=
  ⟨(use_path_as_workpath_policy exec_base orc_base asset_yuv ["r.yuv"] rfl).1,
   ((use_path_as_workpath_policy exec_base orc_base asset_yuv ["r.yuv"] rfl).2
      rfl rfl rfl rfl rfl (by decide)).2.2.1,
   ((use_path_as_workpath_policy exec_base orc_base asset_yuv ["r.yuv"] rfl).2
      rfl rfl rfl rfl rfl (by decide)).2.2.2.2.2⟩

/-! ### C6 -/

/-- Success of the polling loop: the returned poll count exceeds the start
instant by at least one, stays within the fuel, the last poll saw both
paths, and every earlier poll in the window saw at least one missing. -/
lemma wait_from_ok (refEx disEx : Nat → Bool) (a : Asset) :
    ∀ fuel i n, wait_for_workfiles_from refEx disEx a i fuel = Except.ok n →
      i < n ∧ n ≤ i + fuel ∧ (refEx (n - 1) && disEx (n - 1)) = true
        ∧ ∀ j, i ≤ j → j < n - 1 → (refEx j && disEx j) = false := by
  intro fuel
  induction fuel with
  | zero =>
    intro i n h
    exact absurd h (by simp [wait_for_workfiles_from])
  | succ fuel ih =>
    intro i n h
    unfold wait_for_workfiles_from at h
    cases hp : refEx i && disEx i with
    | true =>
      rw [hp] at h
      simp only [if_true] at h
      cases h
      refine ⟨Nat.lt_succ_self i, by omega, ?_, ?_⟩
      · simpa using hp
      · intro j hj1 hj2
        omega
    | false =>
      rw [hp] at h
      simp only [Bool.false_eq_true, if_false] at h
      obtain ⟨h1, h2, h3, h4⟩ := ih (i + 1) n h
      refine ⟨by omega, by omega, h3, ?_⟩
      intro j hj1 hj2
      rcases Nat.eq_or_lt_of_le hj1 with hji | hji
      · rw [← hji]
        exact hp
      · exact h4 j hji hj2

/-- If no poll in the fuel window succeeds, the loop raises the timeout
error naming both expected workfile paths. -/
lemma wait_from_err (refEx disEx : Nat → Bool) (a : Asset) :
    ∀ fuel i, (∀ j, i ≤ j → j < i + fuel → (refEx j && disEx j) = false) →
      wait_for_workfiles_from refEx disEx a i fuel = Except.error (wait_msg a) := by
  intro fuel
  induction fuel with
  | zero =>
    intro i _
    rfl
  | succ fuel ih =>
    intro i h
    unfold wait_for_workfiles_from
    rw [h i (Nat.le_refl i) (by omega)]
    simp only [Bool.false_eq_true, if_false]
    apply ih
    intro j hj1 hj2
    exact h j (by omega) (by omega)

/-- If some poll in the fuel window succeeds, the loop returns normally. -/
lemma wait_from_succeeds (refEx disEx : Nat → Bool) (a : Asset) :
    ∀ fuel i, (∃ j, i ≤ j ∧ j < i + fuel ∧ (refEx j && disEx j) = true) →
      ∃ n, wait_for_workfiles_from refEx disEx a i fuel = Except.ok n := by
  intro fuel
  induction fuel with
  | zero =>
    intro i h
    obtain ⟨j, hj1, hj2, _⟩ := h
    omega
  | succ fuel ih =>
    intro i h
    unfold wait_for_workfiles_from
    cases hp : refEx i && disEx i with
    | true =>
      exact ⟨i + 1, by simp⟩
    | false =>
      simp only [Bool.false_eq_true, if_false]
      apply ih
      obtain ⟨j, hj1, hj2, hjt⟩ := h
      have hji : i + 1 ≤ j := by
        rcases Nat.eq_or_lt_of_le hj1 with hji | hji
        · rw [← hji] at hjt
          rw [hp] at hjt
          exact absurd hjt (by simp)
        · omega
      exact ⟨j, hji, by omega, hjt⟩

/-- C6: `_wait_for_workfiles` polls for the two workfile paths at most 10
times with 100ms spacing. It returns normally at the first poll at which
both paths exist; if no poll within the bound sees both paths, it raises a
fatal error whose message contains both the expected reference workfile
path and the expected distorted workfile path. -/
theorem wait_for_workfiles_bounded (refEx disEx : Nat → Bool) (a : Asset) :
    (∀ n, wait_for_workfiles refEx disEx a = Except.ok n →
        0 < n ∧ n ≤ 10 ∧ (refEx (n - 1) && disEx (n - 1)) = true
          ∧ ∀ j, j < n - 1 → (refEx j && disEx j) = false)
    ∧ ((∃ j, j < 10 ∧ (refEx j && disEx j) = true) →
        ∃ n, wait_for_workfiles refEx disEx a = Except.ok n)
    ∧ ((∀ j, j < 10 → (refEx j && disEx j) = false) →
        wait_for_workfiles refEx disEx a = Except.error (wait_msg a))
    ∧ (∃ s1 s2 s3, wait_msg a
        = s1 ++ a.ref_workfile_path ++ s2 ++ a.dis_workfile_path ++ s3)
    ∧ wait_sleep_ms = 100 := by
  refine ⟨?_, ?_, ?_, ?_, rfl⟩
  · intro n h
    obtain ⟨h1, h2, h3, h4⟩ := wait_from_ok refEx disEx a 10 0 n h
    exact ⟨h1, by omega, h3, fun j hj => h4 j (Nat.zero_le j) hj⟩
  · intro h
    obtain ⟨j, hj, hjt⟩ := h
    exact wait_from_succeeds refEx disEx a 10 0 ⟨j, Nat.zero_le j, by omega, hjt⟩
  · intro h
    exact wait_from_err refEx disEx a 10 0 (fun j _ hj => h j (by omega))
  · exact ⟨"ref or dis video workfile path ", " or ", " is missing.", rfl⟩

/-- Witness for C6: with never-ready workfile paths the wait raises the
timeout error carrying both expected paths. -/
theorem wait_for_workfiles_bounded_witness :
    wait_for_workfiles never_ready never_ready asset_yuv
      = Except.error (wait_msg asset_yuv) :=
  (wait_for_workfiles_bounded never_ready never_ready asset_yuv).2.2.1
    (fun _ _ => rfl)

/-! ### C7 -/

/-- A single asset with crop or pad set but without explicit quality
dimensions fails `_assert_an_asset`, whatever the ffmpeg situation. -/
lemma assert_an_asset_fails (ffmpeg_exists : Bool) (a : Asset)
    (hcp : a.crop_cmd ≠ none ∨ a.pad_cmd ≠ none)
    (hq : ¬("quality_width" ∈ a.asset_dict_keys ∧ "quality_height" ∈ a.asset_dict_keys)) :
    ∃ err, assert_an_asset ffmpeg_exists a = Except.error err := by
  unfold assert_an_asset
  cases hff : (if a.quality_width_height ≠ a.ref_width_height
                  ∨ a.quality_width_height ≠ a.dis_width_height then
                get_and_assert_ffmpeg ffmpeg_exists
              else Except.ok "") with
  | error err => exact ⟨err, rfl⟩
  | ok s =>
    cases hc : a.crop_cmd with
    | some c =>
      have hcrop : assert_crop_explicit a
          = Except.error (RunErr.assertFail
              "If crop_cmd is specified, must also EXPLICITLY specify quality_width and quality_height.") := by
        unfold assert_crop_explicit
        rw [hc]
        exact if_neg hq
      rw [hcrop]
      exact ⟨_, rfl⟩
    | none =>
      have hcrop : assert_crop_explicit a = Except.ok () := by
        unfold assert_crop_explicit
        rw [hc]
      rw [hcrop]
      have hp : a.pad_cmd ≠ none := by
        rcases hcp with h | h
        · exact absurd hc h
        · exact h
      cases hpc : a.pad_cmd with
      | none => exact absurd hpc hp
      | some p =>
        have hpad : assert_pad_explicit a
            = Except.error (RunErr.assertFail
                "If pad_cmd is specified, must also EXPLICITLY specify quality_width and quality_height.") := by
          unfold assert_pad_explicit
          rw [hpc]
          exact if_neg hq
        rw [hpad]
        exact ⟨_, rfl⟩

/-- An asset that fails its assert makes the whole list assert fail. -/
lemma assert_assets_fails (ffmpeg_exists : Bool) :
    ∀ assets (a : Asset), a ∈ assets →
      (∃ err, assert_an_asset ffmpeg_exists a = Except.error err) →
      ∃ err, assert_assets ffmpeg_exists assets = Except.error err := by
  intro assets
  induction assets with
  | nil =>
    intro a hmem _
    exact absurd hmem (List.not_mem_nil a)
  | cons b rest ih =>
    intro a hmem hfail
    unfold assert_assets
    cases hb : assert_an_asset ffmpeg_exists b with
    | error err => exact ⟨err, rfl⟩
    | ok _ =>
      rcases List.mem_cons.mp hmem with hab | harest
      · obtain ⟨err, ha⟩ := hfail
        rw [← hab] at hb
        rw [ha] at hb
        exact absurd hb (by simp)
      · exact ih a harest hfail

/-- C7: constructing an Executor over a list containing an asset that has
a crop or pad spec but whose quality dimensions are not explicit keys of
its configuration dictionary raises at construction (the constructor runs
`_assert_assets` before any job), for either ffmpeg availability. -/
theorem crop_pad_requires_explicit_quality_dims (ffmpeg_exists : Bool)
    (assets : List Asset) (a : Asset) (hmem : a ∈ assets)
    (hcp : a.crop_cmd ≠ none ∨ a.pad_cmd ≠ none)
    (hq : ¬("quality_width" ∈ a.asset_dict_keys ∧ "quality_height" ∈ a.asset_dict_keys)) :
    ∃ err, executor_init ffmpeg_exists assets = Except.error err :=
  assert_assets_fails ffmpeg_exists assets a hmem
    (assert_an_asset_fails ffmpeg_exists a hcp hq)

/-- Witness for C7: a cropped asset without explicit quality dimensions. -/
theorem crop_pad_requires_explicit_quality_dims_witness :
    ∃ err, executor_init true [{ asset_yuv with crop_cmd := some "100:100:0:0" }]
      = Except.error err :=
  crop_pad_requires_explicit_quality_dims true
    [{ asset_yuv with crop_cmd := some "100:100:0:0" }]
    { asset_yuv with crop_cmd := some "100:100:0:0" }
    (List.mem_singleton.mpr rfl)
    (Or.inl (by decide))
    (by decide)

/-! ### C8 -/

/-- A successful lookup returns an entry of the map. -/
lemma lookup_some_mem :
    ∀ (m : List (String × Nat)) (s : String) (v : Nat),
      List.lookup s m = some v → (s, v) ∈ m := by
  intro m
  induction m with
  | nil =>
    intro s v h
    simp at h
  | cons p rest ih =>
    intro s v h
    obtain ⟨k, b⟩ := p
    simp only [List.lookup] at h
    cases hk : s == k with
    | true =>
      rw [hk] at h
      simp only [Option.some.injEq] at h
      have hsk : s = k := beq_iff_eq.mp hk
      rw [List.mem_cons]
      left
      rw [hsk, h]
    | false =>
      rw [hk] at h
      exact List.mem_cons.mpr (Or.inr (ih s v h))

/-- A failed lookup means the key has no entry in the map. -/
lemma lookup_none_not_mem :
    ∀ (m : List (String × Nat)) (s : String),
      List.lookup s m = none → ∀ v, (s, v) ∉ m := by
  intro m
  induction m with
  | nil =>
    intro s _ v hv
    exact List.not_mem_nil (s, v) hv
  | cons p rest ih =>
    intro s h v hv
    obtain ⟨k, b⟩ := p
    simp only [List.lookup] at h
    cases hk : s == k with
    | true =>
      rw [hk] at h
      exact absurd h (by simp)
    | false =>
      rw [hk] at h
      rcases List.mem_cons.mp hv with he | ht
      · have : s = k := congrArg Prod.fst he
        rw [this] at hk
        simp at hk
      · exact ih s h v ht

/-- When keys determine values, membership determines the lookup. -/
lemma mem_lookup_of_ku (m : List (String × Nat))
    (hku : ∀ p, p ∈ m → ∀ q, q ∈ m → p.1 = q.1 → p.2 = q.2)
    (s : String) (v : Nat) (hv : (s, v) ∈ m) :
    List.lookup s m = some v := by
  cases hll : List.lookup s m with
  | none => exact absurd hv (lookup_none_not_mem m s hll v)
  | some w =>
    have hw : (s, w) ∈ m := lookup_some_mem m s w hll
    have hwv : w = v := hku (s, w) hw (s, v) hv rfl
    rw [hwv]

/-- The handle a map associates to an identity string. -/
def lookup_handle (m : List (String × Nat)) (s : String) : Nat :=
  (List.lookup s m).getD 0

/-- The statefully built lock assignment is pointwise a function of the
identity string, that function agrees with the pre-existing map, and it is
injective on the strings of the input plus the map's keys. -/
lemma assign_locks_aux_char :
    ∀ (xs : List String) (m : List (String × Nat)) (fresh : Nat),
      (∀ p, p ∈ m → ∀ q, q ∈ m → p.1 = q.1 → p.2 = q.2) →
      (∀ p, p ∈ m → ∀ q, q ∈ m → p.2 = q.2 → p.1 = q.1) →
      (∀ p, p ∈ m → p.2 < fresh) →
      ∃ f : String → Nat,
        assign_locks_aux xs m fresh = xs.map f
        ∧ (∀ p, p ∈ m → f p.1 = p.2)
        ∧ (∀ s t, (s ∈ xs ∨ ∃ v, (s, v) ∈ m) → (t ∈ xs ∨ ∃ v, (t, v) ∈ m) →
            f s = f t → s = t) := by
  intro xs
  induction xs with
  | nil =>
    intro m fresh hku hvi _
    refine ⟨lookup_handle m, rfl, ?_, ?_⟩
    · intro p hp
      have hl : List.lookup p.1 m = some p.2 := by
        have hpmem : (p.1, p.2) ∈ m := hp
        exact mem_lookup_of_ku m hku p.1 p.2 hpmem
      unfold lookup_handle
      rw [hl]
      rfl
    · intro s t hs ht hf
      rcases hs with hs | ⟨vs, hs⟩
      · exact absurd hs (List.not_mem_nil s)
      rcases ht with ht | ⟨vt, ht⟩
      · exact absurd ht (List.not_mem_nil t)
      unfold lookup_handle at hf
      rw [mem_lookup_of_ku m hku s vs hs, mem_lookup_of_ku m hku t vt ht] at hf
      simp only [Option.getD_some] at hf
      exact hvi (s, vs) hs (t, vt) ht hf
  | cons s rest ih =>
    intro m fresh hku hvi hbd
    cases hl : List.lookup s m with
    | some l =>
      have hmem : (s, l) ∈ m := lookup_some_mem m s l hl
      obtain ⟨f, hmap, hm, hinj⟩ := ih m fresh hku hvi hbd
      refine ⟨f, ?_, hm, ?_⟩
      · simp only [assign_locks_aux, hl, hmap, List.map_cons]
        rw [hm (s, l) hmem]
      · intro x y hx hy hf
        have hx' : x ∈ rest ∨ ∃ v, (x, v) ∈ m := by
          rcases hx with hx | hx
          · rcases List.mem_cons.mp hx with he | ht
            · exact Or.inr ⟨l, he ▸ hmem⟩
            · exact Or.inl ht
          · exact Or.inr hx
        have hy' : y ∈ rest ∨ ∃ v, (y, v) ∈ m := by
          rcases hy with hy | hy
          · rcases List.mem_cons.mp hy with he | ht
            · exact Or.inr ⟨l, he ▸ hmem⟩
            · exact Or.inl ht
          · exact Or.inr hy
        exact hinj x y hx' hy' hf
    | none =>
      have hnot : ∀ v, (s, v) ∉ m := lookup_none_not_mem m s hl
      have hku' : ∀ p, p ∈ (s, fresh) :: m → ∀ q, q ∈ (s, fresh) :: m →
          p.1 = q.1 → p.2 = q.2 := by
        intro p hp q hq hpq
        rcases List.mem_cons.mp hp with hpe | hpt <;>
          rcases List.mem_cons.mp hq with hqe | hqt
        · rw [hpe, hqe]
        · exfalso
          rw [hpe] at hpq
          have hsq : s = q.1 := hpq
          exact hnot q.2 (by rw [hsq]; exact hqt)
        · exfalso
          rw [hqe] at hpq
          have hsp : p.1 = s := hpq
          exact hnot p.2 (by rw [← hsp]; exact hpt)
        · exact hku p hpt q hqt hpq
      have hvi' : ∀ p, p ∈ (s, fresh) :: m → ∀ q, q ∈ (s, fresh) :: m →
          p.2 = q.2 → p.1 = q.1 := by
        intro p hp q hq hpq
        rcases List.mem_cons.mp hp with hpe | hpt <;>
          rcases List.mem_cons.mp hq with hqe | hqt
        · rw [hpe, hqe]
        · exfalso
          have := hbd q hqt
          rw [hpe] at hpq
          omega
        · exfalso
          have := hbd p hpt
          rw [hqe] at hpq
          omega
        · exact hvi p hpt q hqt hpq
      have hbd' : ∀ p, p ∈ (s, fresh) :: m → p.2 < fresh + 1 := by
        intro p hp
        rcases List.mem_cons.mp hp with hpe | hpt
        · rw [hpe]
          exact Nat.lt_succ_self fresh
        · exact Nat.lt_succ_of_lt (hbd p hpt)
      obtain ⟨f, hmap, hm, hinj⟩ := ih ((s, fresh) :: m) (fresh + 1) hku' hvi' hbd'
      have hfs : f s = fresh := hm (s, fresh) (List.mem_cons_self _ _)
      refine ⟨f, ?_, ?_, ?_⟩
      · simp only [assign_locks_aux, hl, hmap, List.map_cons, hfs]
      · intro p hp
        exact hm p (List.mem_cons.mpr (Or.inr hp))
      · intro x y hx hy hf
        have hx' : x ∈ rest ∨ ∃ v, (x, v) ∈ (s, fresh) :: m := by
          rcases hx with hx | ⟨v, hx⟩
          · rcases List.mem_cons.mp hx with he | ht
            · exact Or.inr ⟨fresh, by rw [he]; exact List.mem_cons_self _ _⟩
            · exact Or.inl ht
          · exact Or.inr ⟨v, List.mem_cons.mpr (Or.inr hx)⟩
        have hy' : y ∈ rest ∨ ∃ v, (y, v) ∈ (s, fresh) :: m := by
          rcases hy with hy | ⟨v, hy⟩
          · rcases List.mem_cons.mp hy with he | ht
            · exact Or.inr ⟨fresh, by rw [he]; exact List.mem_cons_self _ _⟩
            · exact Or.inl ht
          · exact Or.inr ⟨v, List.mem_cons.mpr (Or.inr hy)⟩
        exact hinj x y hx' hy' hf

/-- The lock assignment is a function of the identity string, injective on
the strings occurring in the input. -/
lemma assign_locks_char (xs : List String) :
    ∃ f : String → Nat, assign_locks xs = xs.map f
      ∧ ∀ s t, s ∈ xs → t ∈ xs → f s = f t → s = t := by
  obtain ⟨f, hmap, _, hinj⟩ := assign_locks_aux_char xs [] 0
    (fun p hp => absurd hp (List.not_mem_nil p))
    (fun p hp => absurd hp (List.not_mem_nil p))
    (fun p hp => absurd hp (List.not_mem_nil p))
  exact ⟨f, hmap, fun s t hs ht => hinj s t (Or.inl hs) (Or.inl ht)⟩

/-- C8: in both parallel entry points, the lock table assigns the very
same lock handle to two positions of the input list iff the assets at
those positions have the same canonical identity string `str(asset)`. -/
theorem lock_table_same_identity_same_lock (assets : List Asset) (i j : Nat)
    (ai aj : Asset) (li lj : Nat)
    (hai : assets.get? i = some ai) (haj : assets.get? j = some aj)
    (hli : (assign_locks_of_assets assets).get? i = some li)
    (hlj : (assign_locks_of_assets assets).get? j = some lj) :
    li = lj ↔ ai.asset_str = aj.asset_str := by
  obtain ⟨f, hmap, hinj⟩ := assign_locks_char (assets.map Asset.asset_str)
  unfold assign_locks_of_assets at hli hlj
  rw [hmap] at hli hlj
  rw [List.get?_eq_getElem?, List.getElem?_map, List.getElem?_map] at hli hlj
  rw [List.get?_eq_getElem?] at hai haj
  rw [hai] at hli
  rw [haj] at hlj
  simp only [Option.map_some', Option.some.injEq] at hli hlj
  constructor
  · intro he
    apply hinj
    · exact List.mem_map.mpr ⟨ai, List.getElem?_mem hai, rfl⟩
    · exact List.mem_map.mpr ⟨aj, List.getElem?_mem haj, rfl⟩
    · rw [hli, hlj, he]
  · intro he
    rw [← hli, ← hlj, he]

/-- Concrete asset list for the C8 witness: positions 0 and 2 share the
identity string, position 1 differs. -/
def lock_assets : List Asset :=
  [asset_yuv, { asset_yuv with asset_str := "B1" }, asset_yuv]

/-- Witness for C8: positions 0 and 2 of the concrete list receive the
same handle and their identity strings agree. -/
theorem lock_table_same_identity_same_lock_witness :
    assign_locks_of_assets lock_assets = [0, 1, 0]
    ∧ (((0 : Nat) = 0) ↔ asset_yuv.asset_str = asset_yuv.asset_str) :=
  ⟨by decide,
   lock_table_same_identity_same_lock lock_assets 0 2 asset_yuv asset_yuv 0 0
     (by decide) (by decide) (by decide) (by decide)⟩

/-! ### C9 -/

/-- Positional characterization of the aggregation: on success, the output
list has one Result per job and the job at each index produced exactly the
Result at that index. -/
lemma aggregate_results_ok :
    ∀ (xs : List (Except RunErr Result)) (rs : List Result),
      aggregate_results xs = Except.ok rs →
      rs.length = xs.length
        ∧ ∀ (i : Nat) (r : Result), rs[i]? = some r
            → xs[i]? = some (Except.ok r) := by
  intro xs
  induction xs with
  | nil =>
    intro rs h
    simp only [aggregate_results, Except.ok.injEq] at h
    subst h
    refine ⟨rfl, ?_⟩
    intro i r hr
    simp at hr
  | cons x rest ih =>
    intro rs h
    cases x with
    | error err => simp [aggregate_results] at h
    | ok r0 =>
      unfold aggregate_results at h
      cases hrec : aggregate_results rest with
      | error e2 =>
        rw [hrec] at h
        exact absurd h (by simp)
      | ok rs2 =>
        rw [hrec] at h
        simp only [Except.ok.injEq] at h
        subst h
        obtain ⟨hlen, hget⟩ := ih rs2 hrec
        refine ⟨by simp [hlen], ?_⟩
        intro i r hr
        cases i with
        | zero =>
          simp only [List.getElem?_cons_zero, Option.some.injEq] at hr ⊢
          rw [hr]
        | succ n =>
          simp only [List.getElem?_cons_succ] at hr ⊢
          exact hget n r hr

/-- C9: on success, `run_executors_in_parallel` returns one Result per
asset and the Result at index i is exactly the outcome of running the
pipeline on the asset at index i, in both the parallel mode and the
sequential fallback. -/
theorem run_executors_in_parallel_preserves_order (e : Executor) (orc : Oracles)
    (ffmpeg_exists : Bool) (assets : List Asset) (parallelize : Bool)
    (fs : List String) (results : List Result)
    (h : run_executors_in_parallel e orc ffmpeg_exists assets parallelize fs
          = Except.ok results) :
    results.length = assets.length
    ∧ ∀ (i : Nat) (a : Asset) (r : Result), assets[i]? = some a → results[i]? = some r →
        run_executor_job e orc ffmpeg_exists fs a = Except.ok r
        ∧ (run_on_asset e orc a fs).1 = Except.ok r := by
  unfold run_executors_in_parallel at h
  cases hinit : executor_init ffmpeg_exists assets with
  | error err =>
    rw [hinit] at h
    exact absurd h (by simp)
  | ok u =>
    rw [hinit] at h
    have hxs : (if parallelize then
          parallel_map (run_executor_job e orc ffmpeg_exists fs) assets
        else List.map (run_executor_job e orc ffmpeg_exists fs) assets)
        = assets.map (run_executor_job e orc ffmpeg_exists fs) := by
      cases parallelize <;> simp [parallel_map]
    rw [hxs] at h
    obtain ⟨hlen, hget⟩ := aggregate_results_ok _ results h
    refine ⟨by rw [hlen, List.length_map], ?_⟩
    intro i a r ha hr
    have hx := hget i r hr
    rw [List.getElem?_map, ha] at hx
    simp only [Option.map_some', Option.some.injEq] at hx
    refine ⟨hx, ?_⟩
    unfold run_executor_job at hx
    cases hini1 : executor_init ffmpeg_exists [a] with
    | error err =>
      rw [hini1] at hx
      exact absurd hx (by simp)
    | ok _ =>
      rw [hini1] at hx
      exact hx

/-- Executor whose store distinguishes the two witness assets. -/
def exec_keyed : Executor :=
  { exec_base with
    result_store := some (fun s _ => if s == "A0" then some ⟨1⟩ else some ⟨2⟩) }

/-- Concrete asset list for the C9 witness. -/
def par_assets : List Asset :=
  [asset_yuv, { asset_yuv with asset_str := "B1" }]

/-- Witness for C9: a concrete two-asset parallel run returns the two
Results in input order, each being its asset's pipeline outcome. -/
theorem run_executors_in_parallel_preserves_order_witness :
    run_executors_in_parallel exec_keyed orc_base true par_assets true []
      = Except.ok [⟨1⟩, ⟨2⟩]
    ∧ (run_on_asset exec_keyed orc_base { asset_yuv with asset_str := "B1" } []).1
      = Except.ok ⟨2⟩ :=
  ⟨by decide,
   ((run_executors_in_parallel_preserves_order exec_keyed orc_base true par_assets
       true [] [⟨1⟩, ⟨2⟩] (by decide)).2 1 { asset_yuv with asset_str := "B1" } ⟨2⟩
       (by decide) (by decide)).2⟩

/-! ### C10 -/

/-- A failing close always fails with its precondition assert. -/
lemma close_ref_workfile_err (a : Asset) (fs : List String) (err : RunErr)
    (h : close_ref_workfile a fs = Except.error err) :
    err = RunErr.assertFail "close_ref_workfile precondition" := by
  unfold close_ref_workfile at h
  split at h
  · split at h <;> simp at h
  · simp only [Except.error.injEq] at h
    rw [h]

/-- A failing close always fails with its precondition assert. -/
lemma close_dis_workfile_err (a : Asset) (fs : List String) (err : RunErr)
    (h : close_dis_workfile a fs = Except.error err) :
    err = RunErr.assertFail "close_dis_workfile precondition" := by
  unfold close_dis_workfile at h
  split at h
  · split at h <;> simp at h
  · simp only [Except.error.injEq] at h
    rw [h]

/-- A failing materialized open fails with its precondition assert. -/
lemma open_ref_workfile_err (a : Asset) (fs : List String) (err : RunErr)
    (h : open_ref_workfile a fs = Except.error err) :
    err = RunErr.assertFail "open_ref_workfile precondition" := by
  unfold open_ref_workfile at h
  split at h
  · simp at h
  · simp only [Except.error.injEq] at h
    rw [h]

/-- A failing materialized open fails with its precondition assert. -/
lemma open_dis_workfile_err (a : Asset) (fs : List String) (err : RunErr)
    (h : open_dis_workfile a fs = Except.error err) :
    err = RunErr.assertFail "open_dis_workfile precondition" := by
  unfold open_dis_workfile at h
  split at h
  · simp at h
  · simp only [Except.error.injEq] at h
    rw [h]

/-- A successful materialized open of the reference workfile adds the
reference workfile path. -/
lemma open_ref_workfile_ok (a : Asset) (fs fs1 : List String)
    (h : open_ref_workfile a fs = Except.ok fs1) :
    fs1 = fs.insert a.ref_workfile_path := by
  unfold open_ref_workfile at h
  split at h
  · simp only [Except.ok.injEq] at h
    rw [h]
  · simp at h

/-- A successful materialized open of the distorted workfile adds the
distorted workfile path. -/
lemma open_dis_workfile_ok (a : Asset) (fs fs1 : List String)
    (h : open_dis_workfile a fs = Except.ok fs1) :
    fs1 = fs.insert a.dis_workfile_path := by
  unfold open_dis_workfile at h
  split at h
  · simp only [Except.ok.injEq] at h
    rw [h]
  · simp at h

/-- A failing path validation fails with an assert, not a RuntimeError. -/
lemma assert_paths_err (fs : List String) (a : Asset) (err : RunErr)
    (h : assert_paths fs a = Except.error err) :
    ∃ m, err = RunErr.assertFail m := by
  unfold assert_paths at h
  split at h
  · simp at h
  · simp only [Except.error.injEq] at h
    exact ⟨_, h.symm⟩

/-- The close pair never polls and fails only with asserts. -/
lemma close_both_workfiles_spec (a : Asset) (fs : List String) :
    Action.waitForWorkfiles ∉ (close_both_workfiles a fs).2
    ∧ ∀ err, (close_both_workfiles a fs).1 = Except.error err →
        ∃ m, err = RunErr.assertFail m := by
  cases hcr : close_ref_workfile a fs with
  | error err1 =>
    have hcb : close_both_workfiles a fs
        = (Except.error err1, [Action.closeRefWorkfile]) := by
      unfold close_both_workfiles
      rw [hcr]
    rw [hcb]
    refine ⟨by simp, ?_⟩
    intro err h
    simp only [Except.error.injEq] at h
    exact ⟨_, by rw [← h]; exact close_ref_workfile_err a fs err1 hcr⟩
  | ok fs1 =>
    cases hcd : close_dis_workfile a fs1 with
    | error err2 =>
      have hcb : close_both_workfiles a fs
          = (Except.error err2, [Action.closeRefWorkfile, Action.closeDisWorkfile]) := by
        unfold close_both_workfiles
        simp only [hcr]
        rw [hcd]
      rw [hcb]
      refine ⟨by simp, ?_⟩
      intro err h
      simp only [Except.error.injEq] at h
      exact ⟨_, by rw [← h]; exact close_dis_workfile_err a fs1 err2 hcd⟩
    | ok fs2 =>
      have hcb : close_both_workfiles a fs
          = (Except.ok fs2, [Action.closeRefWorkfile, Action.closeDisWorkfile]) := by
        unfold close_both_workfiles
        simp only [hcr]
        rw [hcd]
      rw [hcb]
      refine ⟨by simp, ?_⟩
      intro err h
      simp at h

/-- Stale-workfile removal never polls and fails only with asserts. -/
lemma remove_stale_workfiles_spec (a : Asset) (fs : List String) :
    Action.waitForWorkfiles ∉ (remove_stale_workfiles a fs).2
    ∧ ∀ err, (remove_stale_workfiles a fs).1 = Except.error err →
        ∃ m, err = RunErr.assertFail m := by
  unfold remove_stale_workfiles
  split
  · exact ⟨by simp, by intro err h; simp at h⟩
  · exact close_both_workfiles_spec a fs

/-- Workfile teardown never polls and fails only with asserts. -/
lemma teardown_workfiles_spec (e : Executor) (a : Asset) (fs : List String) :
    Action.waitForWorkfiles ∉ (teardown_workfiles e a fs).2
    ∧ ∀ err, (teardown_workfiles e a fs).1 = Except.error err →
        ∃ m, err = RunErr.assertFail m := by
  unfold teardown_workfiles
  split
  · split
    · exact ⟨by simp, by intro err h; simp at h⟩
    · exact close_both_workfiles_spec a fs
  · exact ⟨by simp, by intro err h; simp at h⟩

/-- Without fifo mode, workfile setup never polls, fails only with
asserts, and on success for an asset that needs workfiles it has fully
materialized both workfile paths before returning. -/
lemma workfile_setup_nofifo_spec (e : Executor) (orc : Oracles) (a : Asset)
    (fs : List String) (hfifo : e.fifo_mode = false) :
    Action.waitForWorkfiles ∉ (workfile_setup e orc a fs).2
    ∧ (∀ err, (workfile_setup e orc a fs).1 = Except.error err →
        ∃ m, err = RunErr.assertFail m)
    ∧ (∀ fs', a.use_path_as_workpath = false →
        (workfile_setup e orc a fs).1 = Except.ok fs' →
        a.ref_workfile_path ∈ fs' ∧ a.dis_workfile_path ∈ fs') := by
  by_cases hu : a.use_path_as_workpath
  · have hws : workfile_setup e orc a fs = (Except.ok fs, []) := by
      unfold workfile_setup
      rw [if_pos hu]
    rw [hws]
    refine ⟨by simp, by intro err h; simp at h, ?_⟩
    intro fs' hu' _
    rw [hu] at hu'
    exact absurd hu' (by simp)
  · cases hor : open_ref_workfile a fs with
    | error err1 =>
      have hws : workfile_setup e orc a fs
          = (Except.error err1, [Action.openRefWorkfile false]) := by
        unfold workfile_setup
        rw [if_neg hu, hfifo]
        simp only [Bool.false_eq_true, if_false]
        rw [hor]
      rw [hws]
      refine ⟨by simp, ?_, ?_⟩
      · intro err h
        simp only [Except.error.injEq] at h
        exact ⟨_, by rw [← h]; exact open_ref_workfile_err a fs err1 hor⟩
      · intro fs' _ h
        simp at h
    | ok fs1 =>
      cases hod : open_dis_workfile a fs1 with
      | error err2 =>
        have hws : workfile_setup e orc a fs
            = (Except.error err2,
               [Action.openRefWorkfile false, Action.openDisWorkfile false]) := by
          unfold workfile_setup
          rw [if_neg hu, hfifo]
          simp only [Bool.false_eq_true, if_false, hor]
          rw [hod]
        rw [hws]
        refine ⟨by simp, ?_, ?_⟩
        · intro err h
          simp only [Except.error.injEq] at h
          exact ⟨_, by rw [← h]; exact open_dis_workfile_err a fs1 err2 hod⟩
        · intro fs' _ h
          simp at h
      | ok fs2 =>
        have hws : workfile_setup e orc a fs
            = (Except.ok fs2,
               [Action.openRefWorkfile false, Action.openDisWorkfile false]) := by
          unfold workfile_setup
          rw [if_neg hu, hfifo]
          simp only [Bool.false_eq_true, if_false, hor]
          rw [hod]
        rw [hws]
        refine ⟨by simp, by intro err h; simp at h, ?_⟩
        intro fs' _ h
        simp only [Except.ok.injEq] at h
        rw [← h]
        rw [open_dis_workfile_ok a fs1 fs2 hod, open_ref_workfile_ok a fs fs1 hor]
        constructor
        · exact List.mem_insert_iff.mpr
            (Or.inr (List.mem_insert_self _ _))
        · exact List.mem_insert_self _ _

/-- C10: when fifo mode is off, a run never reaches the bounded workfile
wait (the workfiles are materialized synchronously during setup, both
paths existing before the pipeline proceeds) and therefore can never fail
with the workfile-readiness RuntimeError. -/
theorem no_wait_without_fifo (e : Executor) (orc : Oracles) (a : Asset)
    (fs : List String) (hfifo : e.fifo_mode = false) :
    Action.waitForWorkfiles ∉ (run_on_asset e orc a fs).2
    ∧ (∀ msg, (run_on_asset e orc a fs).1 ≠ Except.error (RunErr.runtimeErr msg))
    ∧ (∀ fs', a.use_path_as_workpath = false →
        (workfile_setup e orc a fs).1 = Except.ok fs' →
        a.ref_workfile_path ∈ fs' ∧ a.dis_workfile_path ∈ fs') := by
  refine ⟨?_, ?_, (workfile_setup_nofifo_spec e orc a fs hfifo).2.2⟩
  all_goals
    cases hc : cache_lookup e a with
    | some r => simp [run_on_asset, hc]
    | none =>
      cases hap : assert_paths fs a with
      | error err =>
        obtain ⟨m, hm⟩ := assert_paths_err fs a err hap
        simp [run_on_asset, hc, hap, hm]
      | ok u =>
        rcases hrm : remove_stale_workfiles (set_asset_use_path_as_workpath a) fs
          with ⟨r1, t1⟩
        obtain ⟨hrm_w, hrm_e⟩ := remove_stale_workfiles_spec
          (set_asset_use_path_as_workpath a) fs
        rw [hrm] at hrm_w hrm_e
        cases r1 with
        | error err =>
          obtain ⟨m, hm⟩ := hrm_e err rfl
          simp [run_on_asset, hc, hap, hrm, hm, hrm_w]
        | ok fs1 =>
          rcases hws : workfile_setup e orc (set_asset_use_path_as_workpath a) fs1
            with ⟨r2, t2⟩
          obtain ⟨hws_w, hws_e, _⟩ := workfile_setup_nofifo_spec e orc
            (set_asset_use_path_as_workpath a) fs1 hfifo
          rw [hws] at hws_w hws_e
          cases r2 with
          | error err =>
            obtain ⟨m, hm⟩ := hws_e err rfl
            simp [run_on_asset, hc, hap, hrm, hws, hm, hrm_w, hws_w]
          | ok fs2 =>
            rcases htd : teardown_workfiles e (set_asset_use_path_as_workpath a) fs2
              with ⟨r3, t3⟩
            obtain ⟨htd_w, htd_e⟩ := teardown_workfiles_spec e
              (set_asset_use_path_as_workpath a) fs2
            rw [htd] at htd_w htd_e
            cases r3 with
            | error err =>
              obtain ⟨m, hm⟩ := htd_e err rfl
              simp [run_on_asset, hc, hap, hrm, hws, htd, hm, hrm_w, hws_w, htd_w]
            | ok fs3 =>
              cases hdel : e.delete_workdir <;>
                simp [run_on_asset, hc, hap, hrm, hws, htd, log_teardown_eq, hdel,
                  hrm_w, hws_w, htd_w]

/-- Witness for C10 at a concrete materialized-mode run that needs
workfiles. -/
theorem no_wait_without_fifo_witness :
    Action.waitForWorkfiles
      ∉ (run_on_asset { exec_base with fifo_mode := false } orc_base
          { asset_yuv with quality_width_height := ⟨1280, 720⟩ }
          ["r.yuv", "d.yuv"]).2 :=
  (no_wait_without_fifo { exec_base with fifo_mode := false } orc_base
    { asset_yuv with quality_width_height := ⟨1280, 720⟩ }
    ["r.yuv", "d.yuv"] rfl).1

end Vmaf
